import Mathlib

/-!
Verification development for the listmonk `webhooks` package.

The Go source under verification is the webhook dispatch engine:
event constants (`AllEvents`), endpoint construction (`New`), dispatch
(`Manager.Dispatch`), the delivery worker (`Manager.worker`), request
construction with HMAC signing (`Manager.send`, `computeHMAC`), and
lifecycle (`Manager.Close`, `Manager.HasEndpoints`).

Bytes are modelled as `List Nat` (each entry a byte value), Go `int` /
`time.Duration` as `Int`, Go maps `map[string]bool` as membership
functions `String → Bool` built exactly the way the Go loop builds them,
and the buffered channel `chan dispatchJob` of capacity 1000 as a list
together with its capacity; a non-blocking send appends when the buffer
has room and drops otherwise, mirroring `select`/`default`.
-/

namespace Webhooks

/-! ### SHA-256, HMAC-SHA256 and lowercase hex

`crypto/sha256`, `crypto/hmac` and `encoding/hex` from the Go standard
library, modelled from their specifications (FIPS 180-4, RFC 2104) so
that `computeHMAC` can be stated exactly.  Words are `Nat` reduced
modulo 2^32 explicitly. -/

def w32 (n : Nat) : Nat := n % 4294967296

def rotr (k a : Nat) : Nat := w32 ((a >>> k) ||| (a <<< (32 - k)))

def not32 (a : Nat) : Nat := 4294967295 - w32 a

def add32 (a b : Nat) : Nat := (a + b) % 4294967296

def bsig0 (x : Nat) : Nat := rotr 2 x ^^^ rotr 13 x ^^^ rotr 22 x

def bsig1 (x : Nat) : Nat := rotr 6 x ^^^ rotr 11 x ^^^ rotr 25 x

def ssig0 (x : Nat) : Nat := rotr 7 x ^^^ rotr 18 x ^^^ (x >>> 3)

def ssig1 (x : Nat) : Nat := rotr 17 x ^^^ rotr 19 x ^^^ (x >>> 10)

def chFn (e f g : Nat) : Nat := (e &&& f) ^^^ (not32 e &&& g)

def majFn (a b c : Nat) : Nat := (a &&& b) ^^^ (a &&& c) ^^^ (b &&& c)

def sha256K : List Nat :=
  [1116352408, 1899447441, 3049323471, 3921009573, 961987163,
   1508970993, 2453635748, 2870763221, 3624381080, 310598401,
   607225278, 1426881987, 1925078388, 2162078206, 2614888103,
   3248222580, 3835390401, 4022224774, 264347078, 604807628,
   770255983, 1249150122, 1555081692, 1996064986, 2554220882,
   2821834349, 2952996808, 3210313671, 3336571891, 3584528711,
   113926993, 338241895, 666307205, 773529912, 1294757372,
   1396182291, 1695183700, 1986661051, 2177026350, 2456956037,
   2730485921, 2820302411, 3259730800, 3345764771, 3516065817,
   3600352804, 4094571909, 275423344, 430227734, 506948616,
   659060556, 883997877, 958139571, 1322822218, 1537002063,
   1747873779, 1955562222, 2024104815, 2227730452, 2361852424,
   2428436474, 2756734187, 3204031479, 3329325298]

def sha256H0 : List Nat :=
  [1779033703, 3144134277, 1013904242, 2773480762,
   1359893119, 2600822924, 528734635, 1541459225]

def padMessage (msg : List Nat) : List Nat :=
  let L := msg.length
  let zeros := (119 - L % 64) % 64
  msg ++ [128] ++ List.replicate zeros 0 ++
    (List.range 8).map (fun i => ((8 * L) >>> (8 * (7 - i))) % 256)

def toBlocksAux : Nat → List Nat → List (List Nat)
  | 0, _ => []
  | _ + 1, [] => []
  | n + 1, x :: xs => (x :: xs).take 64 :: toBlocksAux n ((x :: xs).drop 64)

def toBlocks (l : List Nat) : List (List Nat) := toBlocksAux l.length l

def blockWords (block : List Nat) : List Nat :=
  (List.range 16).map (fun j =>
    block.getD (4 * j) 0 <<< 24 ||| block.getD (4 * j + 1) 0 <<< 16 |||
    block.getD (4 * j + 2) 0 <<< 8 ||| block.getD (4 * j + 3) 0)

def schedule (ws : List Nat) : List Nat :=
  (List.range 48).foldl (fun w _ =>
    w ++ [add32 (add32 (ssig1 (w.getD (w.length - 2) 0)) (w.getD (w.length - 7) 0))
            (add32 (ssig0 (w.getD (w.length - 15) 0)) (w.getD (w.length - 16) 0))]) ws

def compressBlock (h : List Nat) (block : List Nat) : List Nat :=
  let w := schedule (blockWords block)
  let s := (List.range 64).foldl (fun st t =>
    let a := st.getD 0 0
    let b := st.getD 1 0
    let c := st.getD 2 0
    let d := st.getD 3 0
    let e := st.getD 4 0
    let f := st.getD 5 0
    let g := st.getD 6 0
    let hh := st.getD 7 0
    let T1 := add32 hh (add32 (bsig1 e) (add32 (chFn e f g) (add32 (sha256K.getD t 0) (w.getD t 0))))
    let T2 := add32 (bsig0 a) (majFn a b c)
    [add32 T1 T2, a, b, c, add32 d T1, e, f, g]) h
  List.zipWith add32 h s

def wordBytes (w : Nat) : List Nat := [w >>> 24 % 256, w >>> 16 % 256, w >>> 8 % 256, w % 256]

def sha256 (msg : List Nat) : List Nat :=
  (((toBlocks (padMessage msg)).foldl compressBlock sha256H0).map wordBytes).flatten

def hmacSha256 (key msg : List Nat) : List Nat :=
  let k0 := if key.length > 64 then sha256 key else key
  let k := k0 ++ List.replicate (64 - k0.length) 0
  sha256 (k.map (fun b => b ^^^ 92) ++ sha256 (k.map (fun b => b ^^^ 54) ++ msg))

def hexDigit (n : Nat) : Char := "0123456789abcdef".toList.getD n '0'

def hexEncodeToString (bs : List Nat) : String :=
  String.mk ((bs.map (fun b => [hexDigit (b / 16 % 16), hexDigit (b % 16)])).flatten)

def charUtf8 (c : Char) : List Nat :=
  let n := c.toNat
  if n < 128 then [n]
  else if n < 2048 then [192 + n / 64, 128 + n % 64]
  else if n < 65536 then [224 + n / 4096, 128 + n / 64 % 64, 128 + n % 64]
  else [240 + n / 262144, 128 + n / 4096 % 64, 128 + n / 64 % 64, 128 + n % 64]

def strBytes (s : String) : List Nat := (s.data.map charUtf8).flatten

/-! ### The webhooks package data model (from `webhooks.go`) -/

def EventSubscriberCreated : String := "subscriber.created"

def EventSubscriberUpdated : String := "subscriber.updated"

def EventSubscriberUnsubscribed : String := "subscriber.unsubscribed"

def EventSubscriberConfirmed : String := "subscriber.confirmed"

def EventSubscriberBlocklisted : String := "subscriber.blocklisted"

def EventSubscriberDeleted : String := "subscriber.deleted"

def EventCampaignStarted : String := "campaign.started"

def EventCampaignFinished : String := "campaign.finished"

def EventLinkClick : String := "tracking.link_click"

def EventEmailOpen : String := "tracking.email_open"

def EventBounce : String := "tracking.bounce"

/-- `AllEvents`, the list of all supported event types. -/
def AllEvents : List String :=
  [EventSubscriberCreated,
   EventSubscriberUpdated,
   EventSubscriberUnsubscribed,
   EventSubscriberConfirmed,
   EventSubscriberBlocklisted,
   EventSubscriberDeleted,
   EventCampaignStarted,
   EventCampaignFinished,
   EventLinkClick,
   EventEmailOpen,
   EventBounce]

/-- `time.Second` in nanoseconds (`time.Duration` is an integer count of
nanoseconds). -/
def second : Int := 1000000000

/-- `Opt`, the configuration record for a single webhook endpoint. -/
structure Opt where
  UUID : String
  Name : String
  URL : String
  Secret : String
  Events : List String
  MaxConns : Int
  Timeout : Int

/-- The `http.Transport` fields set by `New`. -/
structure Transport where
  maxIdleConnsPerHost : Int
  maxConnsPerHost : Int
  responseHeaderTimeout : Int
  idleConnTimeout : Int

/-- The `http.Client` fields set by `New`. -/
structure HTTPClient where
  timeout : Int
  transport : Transport

/-- `endpoint`, a configured webhook endpoint; `events` is the
`map[string]bool` membership set. -/
structure endpoint where
  uuid : String
  name : String
  url : String
  secret : String
  events : String → Bool
  client : HTTPClient

/-- `dispatchJob`, a job to dispatch a webhook. -/
structure dispatchJob where
  ep : endpoint
  payload : List Nat

/-- `Manager` state: the endpoint list, the buffered channel `ch`
(contents plus its capacity, 1000 in `New`), and whether `closeCh` has
been closed. -/
structure Manager where
  endpoints : List endpoint
  ch : List dispatchJob
  chCap : Nat
  closeChClosed : Bool

/-- The loop in `New` that turns `o.Events` into the `events` map:
`for _, e := range o.Events { events[e] = true }` over an empty map. -/
def buildEventSet (es : List String) : String → Bool :=
  es.foldl (fun acc e => fun x => if x == e then true else acc x) (fun _ => false)

/-- The body of the `for _, o := range opts` loop in `New`: build one
endpoint from one configuration record, applying the 5s / 5-connection
defaults when the configured values are zero. -/
def mkEndpoint (o : Opt) : endpoint :=
  let events := buildEventSet o.Events
  let timeout := if o.Timeout = 0 then 5 * second else o.Timeout
  let maxConns := if o.MaxConns = 0 then 5 else o.MaxConns
  { uuid := o.UUID
    name := o.Name
    url := o.URL
    secret := o.Secret
    events := events
    client :=
      { timeout := timeout
        transport :=
          { maxIdleConnsPerHost := maxConns
            maxConnsPerHost := maxConns
            responseHeaderTimeout := timeout
            idleConnTimeout := timeout } } }

/-- `New`: build the Manager with `ch := make(chan dispatchJob, 1000)`,
a fresh open `closeCh`, and one endpoint per configuration record.
(The logger argument carries no state we model; log lines are returned
by the operations below instead.) -/
def New (opts : List Opt) : Manager :=
  { endpoints := opts.map mkEndpoint
    ch := []
    chCap := 1000
    closeChClosed := false }

/-- `Payload`, the webhook payload envelope; `Data` is the opaque
`any` value. -/
structure Payload (α : Type) where
  Event : String
  Timestamp : Int
  Data : α

/-- The log line of the `default` branch in `Dispatch`:
`m.log.Printf("webhook: dispatch queue full, dropping event %s for %s", event, ep.name)`. -/
def dropLogLine (event name : String) : String :=
  "webhook: dispatch queue full, dropping event " ++ event ++ " for " ++ name

/-- The log line of the marshalling-failure branch in `Dispatch`:
`m.log.Printf("webhook: error marshalling payload: %v", err)`. -/
def marshalErrLine (err : String) : String :=
  "webhook: error marshalling payload: " ++ err

/-- One iteration of the `for _, ep := range m.endpoints` loop in
`Dispatch`, acting on the channel contents and the emitted log lines:
if the endpoint subscribes to the event, a non-blocking send
(`select` with a `default` branch) appends the job when the buffer has
room and otherwise drops it and logs the drop. -/
def enqueueJob (cap : Nat) (event : String) (b : List Nat)
    (st : List dispatchJob × List String) (ep : endpoint) :
    List dispatchJob × List String :=
  if ep.events event then
    if st.1.length < cap then (st.1 ++ [⟨ep, b⟩], st.2)
    else (st.1, st.2 ++ [dropLogLine event ep.name])
  else st

/-- The observable outcome of one `Dispatch` call: the updated Manager,
the log lines written, and how many times `json.Marshal` ran. -/
structure DispatchOut where
  manager : Manager
  logs : List String
  marshalCount : Nat

/-- `Manager.Dispatch`: early return on an empty endpoint set, build the
payload envelope, marshal it once (`marshal` stands for `json.Marshal`
on the envelope, whose outcome depends on the opaque `data`), abort with
one log line on failure, and otherwise run the non-blocking enqueue loop
over all endpoints. -/
def Manager.Dispatch {α : Type} (marshal : Payload α → Except String (List Nat))
    (m : Manager) (event : String) (now : Int) (data : α) : DispatchOut :=
  if m.endpoints.length = 0 then ⟨m, [], 0⟩
  else
    let payload : Payload α := ⟨event, now, data⟩
    match marshal payload with
    | .error e => ⟨m, [marshalErrLine e], 1⟩
    | .ok b =>
      let r := m.endpoints.foldl (enqueueJob m.chCap event b) (m.ch, [])
      ⟨{ m with ch := r.1 }, r.2, 1⟩

/-- The jobs a `Dispatch` call appended to the channel. -/
def dispatchAdded {α : Type} (marshal : Payload α → Except String (List Nat))
    (m : Manager) (event : String) (now : Int) (data : α) : List dispatchJob :=
  ((Manager.Dispatch marshal m event now data).manager.ch).drop m.ch.length

/-- `computeHMAC`: lowercase-hex HMAC-SHA256 of the payload keyed by the
secret (`hex.EncodeToString(mac.Sum(nil))`). -/
def computeHMAC (payload : List Nat) (secret : String) : String :=
  hexEncodeToString (hmacSha256 (strBytes secret) payload)

/-- The headers `Manager.send` sets on the outgoing POST request:
Content-Type, User-Agent, and the signature header exactly when the
endpoint has a non-empty secret. -/
def sendHeaders (ep : endpoint) (payload : List Nat) : List (String × String) :=
  let hs := [("Content-Type", "application/json"), ("User-Agent", "listmonk")]
  if ep.secret != "" then
    hs ++ [("X-Webhook-Signature", "sha256=" ++ computeHMAC payload ep.secret)]
  else hs

/-- Header lookup by name on the request's header list. -/
def lookupHeader (name : String) (hs : List (String × String)) : Option String :=
  (hs.find? (fun p => p.1 == name)).map Prod.snd

/-- `Manager.worker`'s receive loop on the FIFO channel: take the front
job, deliver it (append it to the delivered sequence), and only then
pull the next one. -/
def workerRun : List dispatchJob → List dispatchJob → List dispatchJob
  | delivered, [] => delivered
  | delivered, j :: q => workerRun (delivered ++ [j]) q

/-- Go's `close` on a channel: closing an already-closed channel is a
run-time panic ("close of closed channel"); otherwise the channel
becomes closed. -/
def closeChan (alreadyClosed : Bool) : Except String Unit :=
  if alreadyClosed then .error "close of closed channel" else .ok ()

/-- `Manager.Close`: runs `close(m.closeCh)` unconditionally.  The
result is the updated Manager, or the panic message when `closeCh` was
already closed. -/
def Manager.Close (m : Manager) : Except String Manager :=
  match closeChan m.closeChClosed with
  | .error e => .error e
  | .ok _ => .ok { m with closeChClosed := true }

/-- `Manager.HasEndpoints`: `len(m.endpoints) > 0`. -/
def Manager.HasEndpoints (m : Manager) : Bool :=
  m.endpoints.length > 0

/-! ### Helper lemmas -/

/-- The `events` map built by `New` holds exactly the members of the
configured event list. -/
theorem buildEventSet_eq (es : List String) (x : String) :
    buildEventSet es x = es.contains x := by
  have aux : ∀ (l : List String) (m : String → Bool),
      (l.foldl (fun acc e => fun y => if y == e then true else acc y) m) x
        = (m x || l.contains x) := by
    intro l
    induction l with
    | nil => intro m; simp
    | cons e t ih =>
      intro m
      simp only [List.foldl_cons, ih]
      by_cases hxe : x = e
      · subst hxe; simp
      · simp [hxe, Ne.symm hxe]
  unfold buildEventSet
  rw [aux]
  simp

/-- The enqueue loop only ever appends to the channel, and every job it
appends targets a subscribed endpoint and carries the shared serialized
bytes. -/
theorem foldl_enqueue_split (cap : Nat) (event : String) (b : List Nat) :
    ∀ (eps : List endpoint) (q : List dispatchJob) (logs : List String),
      ∃ added, (List.foldl (enqueueJob cap event b) (q, logs) eps).1 = q ++ added ∧
        added.all (fun j => j.ep.events event && j.payload == b) = true := by
  intro eps
  induction eps with
  | nil => intro q logs; exact ⟨[], by simp⟩
  | cons ep t ih =>
    intro q logs
    simp only [List.foldl_cons]
    by_cases h1 : ep.events event = true
    · by_cases h2 : q.length < cap
      · have hstep : enqueueJob cap event b (q, logs) ep = (q ++ [⟨ep, b⟩], logs) := by
          simp [enqueueJob, h1, h2]
        rw [hstep]
        obtain ⟨added, hq, hall⟩ := ih (q ++ [⟨ep, b⟩]) logs
        refine ⟨⟨ep, b⟩ :: added, ?_, ?_⟩
        · rw [hq]; simp
        · simp only [List.all_cons, hall, Bool.and_true]
          simp [h1]
      · have hstep : enqueueJob cap event b (q, logs) ep
            = (q, logs ++ [dropLogLine event ep.name]) := by
          simp [enqueueJob, h1, h2]
        rw [hstep]
        exact ih q (logs ++ [dropLogLine event ep.name])
    · have hstep : enqueueJob cap event b (q, logs) ep = (q, logs) := by
        simp only [Bool.not_eq_true] at h1
        simp [enqueueJob, h1]
      rw [hstep]
      exact ih q logs

/-- `Dispatch` leaves the pre-existing channel contents in place: the
channel after the call is the channel before it plus the appended jobs. -/
theorem dispatch_ch_split {α : Type} (marshal : Payload α → Except String (List Nat))
    (m : Manager) (event : String) (now : Int) (data : α) :
    (Manager.Dispatch marshal m event now data).manager.ch
      = m.ch ++ dispatchAdded marshal m event now data := by
  unfold dispatchAdded Manager.Dispatch
  by_cases hemp : m.endpoints.length = 0
  · simp [hemp]
  · simp only [hemp, if_false]
    cases hm : marshal ⟨event, now, data⟩ with
    | error e => simp
    | ok b =>
      obtain ⟨added, hq, -⟩ := foldl_enqueue_split m.chCap event b m.endpoints m.ch []
      simp only [hq]
      simp

/-- Every job appended by a `Dispatch` call targets an endpoint
subscribed to the dispatched event, and when marshalling succeeded with
bytes `b`, every appended job carries exactly those bytes. -/
theorem dispatchAdded_all {α : Type} (marshal : Payload α → Except String (List Nat))
    (m : Manager) (event : String) (now : Int) (data : α) :
    (dispatchAdded marshal m event now data).all (fun j => j.ep.events event) = true ∧
    ∀ b, marshal ⟨event, now, data⟩ = .ok b →
      (dispatchAdded marshal m event now data).all (fun j => j.payload == b) = true := by
  unfold dispatchAdded Manager.Dispatch
  by_cases hemp : m.endpoints.length = 0
  · simp [hemp, List.drop_length]
  · simp only [hemp, if_false]
    cases hm : marshal ⟨event, now, data⟩ with
    | error e => simp [List.drop_length]
    | ok b =>
      obtain ⟨added, hq, hall⟩ := foldl_enqueue_split m.chCap event b m.endpoints m.ch []
      simp only [hq]
      have hdrop : (m.ch ++ added).drop m.ch.length = added := by simp
      simp only [hdrop]
      rw [List.all_eq_true] at hall
      constructor
      · rw [List.all_eq_true]
        intro j hj
        have hj2 := hall j hj
        simp only [Bool.and_eq_true] at hj2
        exact hj2.1
      · intro b' hb'
        injection hb' with hbb'
        subst hbb'
        rw [List.all_eq_true]
        intro j hj
        have hj2 := hall j hj
        simp only [Bool.and_eq_true] at hj2
        exact hj2.2

/-- The worker delivers the queued jobs in queue order, appending each
to the delivered sequence before pulling the next. -/
theorem workerRun_eq (q : List dispatchJob) :
    ∀ acc, workerRun acc q = acc ++ q := by
  induction q with
  | nil => intro acc; simp [workerRun]
  | cons j t ih =>
    intro acc
    rw [workerRun, ih]
    simp

set_option maxRecDepth 20000 in
/-- Sanity check of the hash model against the FIPS 180-4 test vector
for the empty message. -/
theorem sha256_empty_vector :
    hexEncodeToString (sha256 []) =
      "e3b0c44298fc1c149afbf4c8996fb92427ae41e4649b934ca495991b7852b855" := by
  decide

set_option maxRecDepth 60000 in
/-- Sanity check of the HMAC model against the well-known
key/fox test vector. -/
theorem hmac_fox_vector :
    hexEncodeToString (hmacSha256 (strBytes "key")
        (strBytes "The quick brown fox jumps over the lazy dog")) =
      "f7bc83f430538424b13298e6aa6fb143ef4d59a14946175997479dbc2d1a3cd8" := by
  decide

/-- Every character `hexDigit` produces is a lowercase hex digit. -/
theorem hexDigit_mem (n : Nat) :
    ("0123456789abcdef".data.contains (hexDigit n)) = true := by
  unfold hexDigit
  by_cases h : n < 16
  · interval_cases n <;> decide
  · rw [List.getD_eq_default]
    · decide
    · simp only [Nat.not_lt] at h
      calc ("0123456789abcdef".toList).length = 16 := by decide
        _ ≤ n := h

/-- Every character of a hex-encoded byte string is a lowercase hex
digit. -/
theorem hexEncode_lowercase (bs : List Nat) :
    ((hexEncodeToString bs).data.all
      (fun c => "0123456789abcdef".data.contains c)) = true := by
  rw [List.all_eq_true]
  intro c hc
  have hc' : c ∈ ((bs.map (fun b => [hexDigit (b / 16 % 16), hexDigit (b % 16)])).flatten) := hc
  rw [List.mem_flatten] at hc'
  obtain ⟨l, hl, hcl⟩ := hc'
  rw [List.mem_map] at hl
  obtain ⟨b, -, hb⟩ := hl
  subst hb
  simp only [List.mem_cons, List.not_mem_nil, or_false] at hcl
  rcases hcl with h | h <;> (subst h; exact hexDigit_mem _)

/-! ### Claim theorems -/

/-- C1: for every endpoint with a non-empty secret, the delivered
request carries the header `X-Webhook-Signature` whose value is
`sha256=` concatenated with the lowercase-hex HMAC-SHA256 of the exact
serialized payload bytes keyed by the secret; for an empty secret the
header is absent.  The hex encoding uses only lowercase hex digits. -/
theorem signature_header_iff_secret :
    ∀ (ep : endpoint) (payload : List Nat),
      lookupHeader "X-Webhook-Signature" (sendHeaders ep payload)
        = (if ep.secret = "" then none
           else some ("sha256=" ++ computeHMAC payload ep.secret)) ∧
      computeHMAC payload ep.secret
        = hexEncodeToString (hmacSha256 (strBytes ep.secret) payload) ∧
      ∀ bs : List Nat,
        ((hexEncodeToString bs).data.all
          (fun c => "0123456789abcdef".data.contains c)) = true := by
  intro ep payload
  refine ⟨?_, rfl, fun bs => hexEncode_lowercase bs⟩
  have h1 : (("Content-Type" : String) == "X-Webhook-Signature") = false := by decide
  have h2 : (("User-Agent" : String) == "X-Webhook-Signature") = false := by decide
  have h3 : (("X-Webhook-Signature" : String) == "X-Webhook-Signature") = true := by decide
  by_cases hs : ep.secret = ""
  · simp [sendHeaders, lookupHeader, hs, List.find?, h1, h2]
  · simp [sendHeaders, lookupHeader, hs, List.find?, h1, h2, h3]

/-- C5: the code at the failing input.  `Close` runs
`close(m.closeCh)` unconditionally, so the first call succeeds and a
second call on the resulting Manager closes an already-closed channel,
which is a Go run-time panic — the second call is NOT safe. -/
theorem close_second_call_panics :
    (New []).Close = .ok { New [] with closeChClosed := true } ∧
    Manager.Close { New [] with closeChClosed := true }
      = .error "close of closed channel" :=
  ⟨rfl, rfl⟩

/-- C8: the constructed endpoint's HTTP client uses the configured
timeout, or 5 seconds when the configured timeout is zero, uses the
configured max-connections as both per-host connection ceilings, or 5
when zero, and the idle-connection lifetime (and response-header
timeout) equals that same timeout value; `New` builds one endpoint per
configuration record this way. -/
theorem endpoint_client_defaults :
    ∀ (o : Opt) (opts : List Opt),
      (mkEndpoint o).client.timeout = (if o.Timeout = 0 then 5 * second else o.Timeout) ∧
      (mkEndpoint o).client.transport.maxIdleConnsPerHost
        = (if o.MaxConns = 0 then 5 else o.MaxConns) ∧
      (mkEndpoint o).client.transport.maxConnsPerHost
        = (if o.MaxConns = 0 then 5 else o.MaxConns) ∧
      (mkEndpoint o).client.transport.idleConnTimeout = (mkEndpoint o).client.timeout ∧
      (mkEndpoint o).client.transport.responseHeaderTimeout = (mkEndpoint o).client.timeout ∧
      (New opts).endpoints = opts.map mkEndpoint := by
  intro o opts
  exact ⟨rfl, rfl, rfl, rfl, rfl, rfl⟩

/-- Modelled from the spec: the emit call surface (§6) admits only the
11 closed-set event-kind strings; the call sites that choose the event
kind live outside the verified source. -/
def specEventKinds : List String :=
  ["subscriber.created", "subscriber.updated", "subscriber.unsubscribed",
   "subscriber.confirmed", "subscriber.blocklisted", "subscriber.deleted",
   "campaign.started", "campaign.finished",
   "tracking.link_click", "tracking.email_open", "tracking.bounce"]

/-- C9: every event kind the emit surface can dispatch is a member of
the fixed closed set, and `AllEvents` contains exactly these 11
members, without duplicates. -/
theorem allEvents_closed_set :
    specEventKinds = AllEvents ∧
    AllEvents.length = 11 ∧
    AllEvents.Nodup ∧
    specEventKinds.all (fun e => AllEvents.contains e) = true := by
  decide

/-- A concrete configuration record used by witnesses: subscribed to
`subscriber.created` only, all numeric fields zero. -/
def optSub : Opt :=
  ⟨"u1", "ep-one", "http://one.example/hook", "", ["subscriber.created"], 0, 0⟩

/-- The endpoint built from `optSub`. -/
def epSub : endpoint := mkEndpoint optSub

/-- A concrete queued job used to fill the queue in witnesses. -/
def fullQueueJob : dispatchJob := ⟨epSub, []⟩

/-- A concrete configuration record whose event list contains the same
event kind twice. -/
def optDup : Opt :=
  ⟨"u2", "dup-ep", "http://two.example/hook", "",
   ["subscriber.created", "subscriber.created"], 0, 0⟩

/-- C2: the dispatch queue made by `New` has capacity 1000 shared by
all endpoints; when the queue is at capacity, the job for a subscribed
endpoint is dropped, the drop is logged with the event kind and the
endpoint name, and the remaining endpoints are processed from exactly
the same queue state, so one endpoint's drop never prevents another
endpoint's enqueue attempt. -/
theorem queue_full_drop_logged_and_isolated :
    ∀ (cap : Nat) (event : String) (b : List Nat) (q : List dispatchJob)
      (logs : List String) (ep : endpoint) (rest : List endpoint) (opts : List Opt),
      ep.events event = true → cap ≤ q.length →
      ((New opts).chCap = 1000 ∧
       List.foldl (enqueueJob cap event b) (q, logs) (ep :: rest)
         = List.foldl (enqueueJob cap event b)
             (q, logs ++ [dropLogLine event ep.name]) rest ∧
       dropLogLine event ep.name
         = "webhook: dispatch queue full, dropping event " ++ event ++ " for " ++ ep.name) := by
  intro cap event b q logs ep rest opts h1 h2
  refine ⟨rfl, ?_, rfl⟩
  have hstep : enqueueJob cap event b (q, logs) ep
      = (q, logs ++ [dropLogLine event ep.name]) := by
    simp [enqueueJob, h1, Nat.not_lt.mpr h2]
  rw [List.foldl_cons, hstep]

/-- Witness for C2 at a concrete full queue of 1000 jobs. -/
theorem queue_full_drop_logged_and_isolated_witness :
    epSub.events "subscriber.created" = true ∧
    1000 ≤ (List.replicate 1000 fullQueueJob).length ∧
    ((New []).chCap = 1000 ∧
     List.foldl (enqueueJob 1000 "subscriber.created" [])
         (List.replicate 1000 fullQueueJob, []) (epSub :: [])
       = List.foldl (enqueueJob 1000 "subscriber.created" [])
           (List.replicate 1000 fullQueueJob,
            [] ++ [dropLogLine "subscriber.created" epSub.name]) [] ∧
     dropLogLine "subscriber.created" epSub.name
       = "webhook: dispatch queue full, dropping event " ++ "subscriber.created"
           ++ " for " ++ epSub.name) :=
  ⟨by decide, by simp only [List.length_replicate, le_refl],
   queue_full_drop_logged_and_isolated 1000 "subscriber.created" []
     (List.replicate 1000 fullQueueJob) [] epSub [] [] (by decide)
     (by simp only [List.length_replicate, le_refl])⟩

/-- C3: an emit creates jobs only for endpoints whose subscription set
contains the event: every job a dispatch appends targets a subscribed
endpoint, and no appended job targets an endpoint that does not
subscribe to the event. -/
theorem unsubscribed_endpoint_gets_no_job :
    ∀ (α : Type) (marshal : Payload α → Except String (List Nat)) (m : Manager)
      (event : String) (now : Int) (data : α) (ep : endpoint),
      ep.events event = false →
      ((dispatchAdded marshal m event now data).all
          (fun j => j.ep.events event) = true ∧
       ∀ j ∈ dispatchAdded marshal m event now data, j.ep ≠ ep) := by
  intro α marshal m event now data ep hep
  have h := (dispatchAdded_all marshal m event now data).1
  refine ⟨h, ?_⟩
  intro j hj hcontra
  rw [List.all_eq_true] at h
  have hj2 : j.ep.events event = true := h j hj
  rw [hcontra, hep] at hj2
  exact Bool.false_ne_true hj2

/-- Witness for C3: `epSub` does not subscribe to `campaign.started`,
so a dispatch of that event over a manager holding only `epSub` creates
no job for it. -/
theorem unsubscribed_endpoint_gets_no_job_witness :
    epSub.events "campaign.started" = false ∧
    ((dispatchAdded (fun _ : Payload Unit => Except.ok [1]) (New [optSub])
          "campaign.started" 0 ()).all
        (fun j => j.ep.events "campaign.started") = true ∧
     ∀ j ∈ dispatchAdded (fun _ : Payload Unit => Except.ok [1]) (New [optSub])
          "campaign.started" 0 (),
       j.ep ≠ epSub) :=
  ⟨by decide,
   unsubscribed_endpoint_gets_no_job Unit (fun _ => Except.ok [1]) (New [optSub])
     "campaign.started" 0 () epSub (by decide)⟩

/-- C4: on a non-empty endpoint set, `json.Marshal` runs exactly once
per dispatch; on success every appended job carries the same serialized
bytes and pre-existing queue contents are preserved; on failure the
call logs exactly one line, changes nothing, and appends no job for any
endpoint. -/
theorem payload_serialized_once_and_shared :
    ∀ (α : Type) (marshal : Payload α → Except String (List Nat)) (m : Manager)
      (event : String) (now : Int) (data : α),
      m.endpoints ≠ [] →
      ((Manager.Dispatch marshal m event now data).marshalCount = 1 ∧
       (match marshal ⟨event, now, data⟩ with
        | .ok b =>
            (Manager.Dispatch marshal m event now data).manager.ch
              = m.ch ++ dispatchAdded marshal m event now data ∧
            (dispatchAdded marshal m event now data).all
              (fun j => j.payload == b) = true
        | .error e =>
            (Manager.Dispatch marshal m event now data).manager = m ∧
            (Manager.Dispatch marshal m event now data).logs = [marshalErrLine e] ∧
            dispatchAdded marshal m event now data = [])) := by
  intro α marshal m event now data hne
  have hlen : ¬ m.endpoints.length = 0 := by
    simpa [List.length_eq_zero] using hne
  constructor
  · unfold Manager.Dispatch
    simp only [hlen, if_false]
    cases hm : marshal ⟨event, now, data⟩ <;> simp [hm]
  · cases hm : marshal ⟨event, now, data⟩ with
    | ok b =>
      exact ⟨dispatch_ch_split marshal m event now data,
             (dispatchAdded_all marshal m event now data).2 b hm⟩
    | error e =>
      unfold dispatchAdded Manager.Dispatch
      simp [hlen, hm, List.drop_length]

/-- Witness for C4 at a concrete one-endpoint manager and a marshaller
returning the bytes `[1, 2]`. -/
theorem payload_serialized_once_and_shared_witness :
    (New [optSub]).endpoints ≠ [] ∧
    ((Manager.Dispatch (fun _ : Payload Unit => Except.ok [1, 2]) (New [optSub])
          "subscriber.created" 0 ()).marshalCount = 1 ∧
     (match (fun _ : Payload Unit => Except.ok (ε := String) [1, 2])
          ⟨"subscriber.created", 0, ()⟩ with
      | .ok b =>
          (Manager.Dispatch (fun _ : Payload Unit => Except.ok [1, 2]) (New [optSub])
              "subscriber.created" 0 ()).manager.ch
            = (New [optSub]).ch ++ dispatchAdded (fun _ : Payload Unit => Except.ok [1, 2])
                (New [optSub]) "subscriber.created" 0 () ∧
          (dispatchAdded (fun _ : Payload Unit => Except.ok [1, 2]) (New [optSub])
              "subscriber.created" 0 ()).all (fun j => j.payload == b) = true
      | .error e =>
          (Manager.Dispatch (fun _ : Payload Unit => Except.ok [1, 2]) (New [optSub])
              "subscriber.created" 0 ()).manager = New [optSub] ∧
          (Manager.Dispatch (fun _ : Payload Unit => Except.ok [1, 2]) (New [optSub])
              "subscriber.created" 0 ()).logs = [marshalErrLine e] ∧
          dispatchAdded (fun _ : Payload Unit => Except.ok [1, 2]) (New [optSub])
              "subscriber.created" 0 () = [])) :=
  ⟨by simp [New], payload_serialized_once_and_shared Unit
    (fun _ => Except.ok [1, 2]) (New [optSub]) "subscriber.created" 0 ()
    (by simp [New])⟩

/-- C6: the single worker delivers jobs in exactly the order in which
they sit in the FIFO queue, completing each before pulling the next,
and dispatch appends new jobs at the tail; hence the delivered
subsequence of any one endpoint (any Boolean selection of jobs) keeps
its enqueue order. -/
theorem worker_fifo_order :
    ∀ (q : List dispatchJob) (p : dispatchJob → Bool) (α : Type)
      (marshal : Payload α → Except String (List Nat)) (m : Manager)
      (event : String) (now : Int) (data : α),
      workerRun [] q = q ∧
      (workerRun [] q).filter p = q.filter p ∧
      (Manager.Dispatch marshal m event now data).manager.ch
        = m.ch ++ dispatchAdded marshal m event now data := by
  intro q p α marshal m event now data
  have h0 : workerRun [] q = q := by rw [workerRun_eq]; simp
  exact ⟨h0, by rw [h0], dispatch_ch_split marshal m event now data⟩

/-- C7: `HasEndpoints` is false exactly on the empty configuration, and
a dispatch over an empty endpoint set is a complete no-op: the manager
is unchanged, nothing is logged, and the serializer never runs. -/
theorem hasEndpoints_and_empty_noop :
    ∀ (m : Manager) (α : Type) (marshal : Payload α → Except String (List Nat))
      (event : String) (now : Int) (data : α),
      (m.HasEndpoints = false ↔ m.endpoints = []) ∧
      (m.endpoints = [] →
        Manager.Dispatch marshal m event now data = ⟨m, [], 0⟩) := by
  intro m α marshal event now data
  constructor
  · simp [Manager.HasEndpoints, List.length_eq_zero]
  · intro h
    unfold Manager.Dispatch
    simp [h]

/-- Witness for C7 at the empty configuration. -/
theorem hasEndpoints_and_empty_noop_witness :
    ((New []).HasEndpoints = false ↔ (New []).endpoints = []) ∧
    ((New []).endpoints = [] →
      Manager.Dispatch (fun _ : Payload Unit => Except.ok []) (New [])
          "subscriber.created" 0 () = ⟨New [], [], 0⟩) :=
  hasEndpoints_and_empty_noop (New []) Unit (fun _ => Except.ok [])
    "subscriber.created" 0 ()

/-- C10: the `events` map deduplicates the configured event list, so
even when a configuration lists the same event kind more than once, a
single emit of that kind enqueues exactly one job for that endpoint. -/
theorem duplicate_subscription_single_job :
    ∀ (o : Opt) (event : String) (b : List Nat) (α : Type)
      (marshal : Payload α → Except String (List Nat)) (now : Int) (data : α),
      2 ≤ o.Events.count event →
      marshal ⟨event, now, data⟩ = .ok b →
      (dispatchAdded marshal (New [o]) event now data = [⟨mkEndpoint o, b⟩] ∧
       ∀ e, (mkEndpoint o).events e = o.Events.contains e) := by
  intro o event b α marshal now data hcount hm
  have hmem : (mkEndpoint o).events event = true := by
    show buildEventSet o.Events event = true
    rw [buildEventSet_eq]
    have hpos : 0 < o.Events.count event := by omega
    have hin : event ∈ o.Events := by
      by_contra hno
      rw [List.count_eq_zero_of_not_mem hno] at hpos
      omega
    simpa using hin
  constructor
  · unfold dispatchAdded Manager.Dispatch
    simp [New, hm, enqueueJob, hmem]
  · intro e
    show buildEventSet o.Events e = _
    exact buildEventSet_eq o.Events e

/-- Witness for C10 at a configuration listing `subscriber.created`
twice. -/
theorem duplicate_subscription_single_job_witness :
    2 ≤ optDup.Events.count "subscriber.created" ∧
    (dispatchAdded (fun _ : Payload Unit => Except.ok [7]) (New [optDup])
        "subscriber.created" 0 () = [⟨mkEndpoint optDup, [7]⟩] ∧
     ∀ e, (mkEndpoint optDup).events e = optDup.Events.contains e) :=
  ⟨by decide,
   duplicate_subscription_single_job optDup "subscriber.created" [7] Unit
     (fun _ => Except.ok [7]) 0 () (by decide) rfl⟩

end Webhooks
